import Mathlib

/-!
# K8s MCP server — verification of spec claims

Shallow embedding of the tool layer and dispatch layer of the K8s MCP
server (`server.py` and `tools/*.py`).  External collaborators (the
Kubernetes API client, the YAML library, the `kubectl` binary, the
filesystem) are modelled as explicit environments/parameters; the pure
logic of each operation (argument handling, validation, sorting,
grouping, message formatting, control flow around external calls) is
translated directly from the source.

Conventions:
* Python `None` becomes `Option.none`; Python truthiness of an optional
  string (`if namespace:`) is `none`/`""` falsy, everything else truthy.
* Timestamps (Python `datetime` values, which are always truthy) are
  modelled as `Nat`; `a or b or c` over them is first-non-`None`.
* Exceptions become `Except`; a `try/except` boundary is a `match` on
  the `Except` value.
* Python's `sorted` (Timsort) is a stable sort; it is modelled by
  `List.insertionSort`, which is also stable, with the corresponding
  (total, transitive) comparison.
-/

/-! ## Events (`tools/events.py`) -/

/-- A Kubernetes Event object, restricted to the fields read by
`EventTools.list_events`. -/
structure KEvent where
  first_timestamp : Option Nat
  event_time : Option Nat
  creation_timestamp : Nat
  etype : String
  reason : String
  involved_kind : String
  involved_name : String
  involved_ns : String
  message : Option String
deriving DecidableEq, Repr

/-- `e.first_timestamp or e.event_time or e.metadata.creation_timestamp`
(`events.py`, lines 40 and 47).  `datetime` values are always truthy, so
the Python `or`-chain picks the first non-`None` entry. -/
def effectiveTimestamp (e : KEvent) : Nat :=
  match e.first_timestamp with
  | some t => t
  | none =>
    match e.event_time with
    | some t => t
    | none => e.creation_timestamp

/-- The comparison realised by `sorted(..., key=effectiveTimestamp,
reverse=True)`: `a` may precede `b` iff `a`'s key is ≥ `b`'s key. -/
def eventGE (a b : KEvent) : Prop :=
  effectiveTimestamp b ≤ effectiveTimestamp a

instance : DecidableRel eventGE := fun a b =>
  inferInstanceAs (Decidable (effectiveTimestamp b ≤ effectiveTimestamp a))

instance : IsTotal KEvent eventGE :=
  ⟨fun a b => (Nat.le_total (effectiveTimestamp b) (effectiveTimestamp a)).elim Or.inl Or.inr⟩

instance : IsTrans KEvent eventGE :=
  ⟨fun _ _ _ h1 h2 => Nat.le_trans h2 h1⟩

/-- `sorted(events.items, key=..., reverse=True)` (`events.py` line 38):
a stable descending sort by effective timestamp. -/
def sortedEvents (items : List KEvent) : List KEvent :=
  List.insertionSort eventGE items

/-- The events that actually appear in the output:
`sorted_events[:limit]` (`events.py` line 46). -/
def shownEvents (items : List KEvent) (limit : Nat) : List KEvent :=
  (sortedEvents items).take limit

/-- One rendered event block (`events.py` lines 47–53). -/
def renderEvent (e : KEvent) : String :=
  "[" ++ toString (effectiveTimestamp e) ++ "] " ++ e.etype ++ " - " ++ e.reason ++ "\n"
    ++ "  Object: " ++ e.involved_kind ++ "/" ++ e.involved_name ++ "\n"
    ++ "  Namespace: " ++ e.involved_ns ++ "\n"
    ++ (match e.message with
        | some m => if m = "" then "" else "  Message: " ++ m ++ "\n"
        | none => "")
    ++ "\n"

/-- The scope string of `list_events` (`events.py` lines 27–32). -/
def eventScope (ns : Option String) : String :=
  match ns with
  | some s => if s = "" then "all namespaces" else "namespace '" ++ s ++ "'"
  | none => "all namespaces"

/-- `EventTools.list_events` given the list of events returned by the
cluster API (`events.py` lines 24–55, success path). -/
def list_events (items : List KEvent) (ns : Option String) (limit : Nat) : String :=
  if items = [] then
    "No events found in " ++ eventScope ns
  else
    "Recent events in " ++ eventScope ns ++ " (showing "
      ++ toString (sortedEvents items).length ++ "):\n\n"
      ++ String.join ((shownEvents items limit).map renderEvent)

/-- A concrete event whose effective timestamp is `t` (its
`first_timestamp`), used for concrete evaluations. -/
def evAt (t : Nat) (r : String) : KEvent :=
  { first_timestamp := some t
    event_time := none
    creation_timestamp := 0
    etype := "Normal"
    reason := r
    involved_kind := "Pod"
    involved_name := "p"
    involved_ns := "default"
    message := none }

/-! ## Nodes (`tools/nodes.py`) -/

/-- A node condition, restricted to the fields read by
`NodeTools.list_pods_by_node`. -/
structure NodeCondition where
  ctype : String
  status : String
deriving DecidableEq, Repr

/-- A Node object, restricted to the fields read by
`NodeTools.list_pods_by_node`. -/
structure KNode where
  name : String
  conditions : List NodeCondition
deriving DecidableEq, Repr

/-- A Pod object, restricted to the fields read by
`NodeTools.list_pods_by_node`. -/
structure KPod where
  name : String
  ns : String
  node_name : Option String
  phase : String
deriving DecidableEq, Repr

/-- Python truthiness of an optional string (`if node_name:`,
`if namespace:`): `None` and `""` are falsy. -/
def optTruthy (o : Option String) : Bool :=
  match o with
  | some s => !(s = "")
  | none => false

/-- `{c.type: c.status for c in node.status.conditions if c.type == 'Ready'}
.get('Ready', 'Unknown')` (`nodes.py` lines 150–151).  A dict
comprehension keeps the last binding for a repeated key. -/
def readyStatus (node : KNode) : String :=
  match (node.conditions.filter (fun c => c.ctype == "Ready")).getLast? with
  | some c => c.status
  | none => "Unknown"

/-- Append `p` to the group of key `k` in an insertion-ordered
association list, adding `(k, [p])` at the end when `k` is new — the
behaviour of `pods_by_node[node_name].append(pod)` on a Python dict
(`nodes.py` lines 126–130). -/
def addPod (m : List (String × List KPod)) (k : String) (p : KPod) :
    List (String × List KPod) :=
  match m with
  | [] => [(k, [p])]
  | (k', ps) :: rest =>
    if k' = k then (k', ps ++ [p]) :: rest else (k', ps) :: addPod rest k p

/-- One iteration of the grouping loop of `list_pods_by_node`
(`nodes.py` lines 125–130): a pod whose `spec.node_name` is falsy is
skipped. -/
def groupStep (m : List (String × List KPod)) (p : KPod) :
    List (String × List KPod) :=
  match p.node_name with
  | some n => if n = "" then m else addPod m n p
  | none => m

/-- The grouping loop of `list_pods_by_node` (`nodes.py` lines 124–130). -/
def groupPods (pods : List KPod) : List (String × List KPod) :=
  pods.foldl groupStep []

/-- The second loop of `list_pods_by_node` (`nodes.py` lines 133–135):
every listed node absent from the grouping gets an empty group. -/
def addEmptyNodes (m : List (String × List KPod)) (nodes : List KNode) :
    List (String × List KPod) :=
  nodes.foldl
    (fun m nd =>
      if nd.name ∈ m.map Prod.fst then m else m ++ [(nd.name, [])])
    m

/-- The full insertion-ordered `pods_by_node` dict, after the namespace
filter (`nodes.py` lines 117–135). -/
def podsByNode (nodes : List KNode) (pods : List KPod) (ns : Option String) :
    List (String × List KPod) :=
  let pods1 :=
    if optTruthy ns then pods.filter (fun p => p.ns == ns.getD "") else pods
  addEmptyNodes (groupPods pods1) nodes

/-- `sorted(pods_by_node.keys())` (`nodes.py` line 143). -/
def sortedNodeKeys (nodes : List KNode) (pods : List KPod) (ns : Option String) :
    List String :=
  List.insertionSort (fun a b : String => a ≤ b)
    ((podsByNode nodes pods ns).map Prod.fst)

/-- One rendered pod line (`nodes.py` line 160). -/
def podLine (p : KPod) : String :=
  "    - " ++ p.name ++ " (" ++ p.phase ++ ") [ns: " ++ p.ns ++ "]\n"

/-- The rendered block of one node group (`nodes.py` lines 145–164).
`next((n for n in nodes.items if ...), None)` is a first-match search. -/
def nodeBlock (nodes : List KNode) (m : List (String × List KPod))
    (node_name : String) : String :=
  (match nodes.find? (fun n => n.name == node_name) with
   | some nd => "Node: " ++ node_name ++ " (Ready=" ++ readyStatus nd ++ ")\n"
   | none => "Node: " ++ node_name ++ "\n")
    ++ (match (m.lookup node_name).getD [] with
        | [] => "  Pods: None\n"
        | ps => "  Pods (" ++ toString ps.length ++ "):\n"
            ++ String.join (ps.map podLine))
    ++ "\n"

/-- `NodeTools.list_pods_by_node` given the node list and pod list
returned by the cluster API (`nodes.py` lines 112–166, success path). -/
def list_pods_by_node (nodes : List KNode) (pods : List KPod)
    (ns : Option String) : String :=
  let m := podsByNode nodes pods ns
  if m = [] then "No nodes or pods found"
  else
    let scope :=
      if optTruthy ns then "namespace '" ++ ns.getD "" ++ "'" else "all namespaces"
    "Pods by Node (" ++ scope ++ "):\n\n"
      ++ String.join ((sortedNodeKeys nodes pods ns).map (nodeBlock nodes m))

/-! ## YAML operations (`tools/yaml_ops.py`) -/

/-- Outcome of running the external `kubectl` process
(`subprocess.run(..., capture_output=True, text=True, timeout=60)`):
normal exit with a return code and both streams, `TimeoutExpired`, or
`FileNotFoundError` (executable absent). -/
inductive RunResult where
  | exited (returncode : Int) (stdout stderr : String)
  | timedOut
  | exeNotFound
deriving DecidableEq, Repr

/-- External collaborators of `YamlOpsTools.apply`: the YAML library
(`yaml.safe_load_all`, returning parsed documents — `none` models a null
document — or a `YAMLError` message), the transient file name chosen by
`tempfile.NamedTemporaryFile`, and the `kubectl` process runner.
Documents are opaque payloads (`Nat`) apart from nullness. -/
structure ApplyEnv where
  parse : String → Except String (List (Option Nat))
  tmpName : String
  run : String → Nat → RunResult

/-- `YamlOpsTools.apply` (`yaml_ops.py` lines 26–72), with the file
system modelled as the list of existing files, threaded through: the
result is the returned text together with the final file list.  The
`finally` block (unlink) runs on every path leaving the inner `try`,
including `TimeoutExpired` and `FileNotFoundError` propagating to the
outer handlers. -/
def apply_yaml (env : ApplyEnv) (yaml_content : String) (fs : List String) :
    String × List String :=
  match env.parse yaml_content with
  | .error msg => ("✗ YAML parsing error: " ++ msg, fs)
  | .ok resources =>
    if resources.isEmpty || resources.all (fun r => r == none) then
      ("✗ Error: No valid resources found in YAML", fs)
    else
      let fs1 := fs ++ [env.tmpName]
      let fs2 := fs1.erase env.tmpName
      match env.run env.tmpName 60 with
      | .exited rc out err =>
        (if rc = 0 then "✓ Successfully applied YAML:\n\n" ++ out
         else "✗ Error applying YAML:\n\n" ++ err, fs2)
      | .timedOut => ("✗ Error: kubectl apply timed out after 60 seconds", fs2)
      | .exeNotFound =>
        ("✗ Error: kubectl command not found. Make sure kubectl is installed and in PATH.",
          fs2)

/-- An `ApiException` from the cluster API client: status code, reason,
body. -/
structure ApiErr where
  status : Int
  reason : String
  body : String
deriving DecidableEq, Repr

/-- External collaborators of `YamlOpsTools.get`: the mapped read call
(`api_map[kind]` method, applied to name and namespace) and the
serializer (`sanitize_for_serialization` + `yaml.dump`); resources are
opaque payloads. -/
structure GetYamlEnv where
  read : String → String → String → Except ApiErr Nat
  dump : Nat → String

/-- The keys of `api_map` (`yaml_ops.py` lines 78–84), in insertion
order. -/
def supportedKinds : List String :=
  ["Pod", "Deployment", "Service", "ConfigMap", "Secret"]

/-- `YamlOpsTools.get` (`yaml_ops.py` lines 74–109). -/
def get_yaml (env : GetYamlEnv) (kind name : String) (ns : Option String) :
    String :=
  if kind ∈ supportedKinds then
    if optTruthy ns then
      match env.read kind name (ns.getD "") with
      | .ok resource =>
        "YAML for " ++ kind ++ "/" ++ name ++ ":\n\n" ++ env.dump resource
      | .error e =>
        if e.status = 404 then
          "Resource " ++ kind ++ "/" ++ name ++ " not found in namespace '"
            ++ ns.getD "" ++ "'"
        else "Error getting resource: " ++ e.reason ++ " - " ++ e.body
    else "Namespace required for " ++ kind ++ " resources"
  else
    "Unsupported resource kind: " ++ kind
      ++ ". Supported: Pod, Deployment, Service, ConfigMap, Secret"

/-! ## Deployments (`tools/deployments.py`) -/

/-- A Deployment object as touched by `DeploymentTools.scale`:
`spec.replicas` plus all its other fields, opaque (`rest`). -/
structure KDeployment where
  replicas : Option Int
  rest : Nat
deriving DecidableEq, Repr

/-- External collaborators of `DeploymentTools.scale`:
`read_namespaced_deployment` and `patch_namespaced_deployment`
(name, namespace, body). -/
structure ScaleEnv where
  read : String → String → Except ApiErr KDeployment
  patch : String → String → KDeployment → Except ApiErr Unit

/-- The `except ApiException` handler of `DeploymentTools.scale`
(`deployments.py` lines 72–75). -/
def renderScaleErr (dn ns : String) (e : ApiErr) : String :=
  if e.status = 404 then
    "Deployment '" ++ dn ++ "' not found in namespace '" ++ ns ++ "'"
  else "Error scaling deployment: " ++ e.reason ++ " - " ++ e.body

/-- `DeploymentTools.scale` (`deployments.py` lines 51–77).  Besides the
returned text it exposes the body of the patch call that was issued
(`none` when the read failed and no patch was attempted). -/
def scale (env : ScaleEnv) (deployment_name : String) (replicas : Int)
    (ns : String) : String × Option KDeployment :=
  match env.read deployment_name ns with
  | .error e => (renderScaleErr deployment_name ns e, none)
  | .ok dep =>
    let body := { dep with replicas := some replicas }
    match env.patch deployment_name ns body with
    | .ok _ =>
      ("Successfully scaled deployment '" ++ deployment_name ++ "' to "
        ++ toString replicas ++ " replicas in namespace '" ++ ns ++ "'", some body)
    | .error e => (renderScaleErr deployment_name ns e, some body)

/-! ## Namespaces (`tools/namespaces.py`) -/

/-- External collaborator of `NamespaceTools.create_namespace`:
`create_namespace(body=V1Namespace(metadata=V1ObjectMeta(name, labels)))`,
modelled as a call taking the name and the label map. -/
structure CreateNsEnv where
  create : String → List (String × String) → Except ApiErr Unit

/-- `NamespaceTools.create_namespace` (`namespaces.py` lines 51–69).
`labels or {}` maps a missing/falsy label dict to the empty map. -/
def create_namespace (env : CreateNsEnv) (name : String)
    (labels : Option (List (String × String))) : String :=
  match env.create name (labels.getD []) with
  | .ok _ => "Successfully created namespace '" ++ name ++ "'"
  | .error e =>
    if e.status = 409 then "Namespace '" ++ name ++ "' already exists"
    else "Error creating namespace: " ++ e.reason ++ " - " ++ e.body

/-- A cluster fixture for the create-twice scenario: `st` is the set of
existing namespace names; creating an existing one yields a 409
conflict. -/
def nsCreateOnCluster (st : List String) : CreateNsEnv :=
  ⟨fun n _ =>
    if n ∈ st then
      .error ⟨409, "Conflict", "namespaces already exists"⟩
    else .ok ()⟩

/-- Concrete environment fixtures for witnesses. -/
def applyEnvEmpty : ApplyEnv :=
  ⟨fun _ => .ok [], "tmp.yaml", fun _ _ => .exited 0 "" ""⟩

def applyEnvEmpty' : ApplyEnv :=
  ⟨fun _ => .ok [], "other.yaml", fun _ _ => .timedOut⟩

def applyEnvTimeout : ApplyEnv :=
  ⟨fun _ => .ok [some 1], "tmp.yaml", fun _ _ => .timedOut⟩

def getEnv0 : GetYamlEnv :=
  ⟨fun _ _ _ => .error ⟨404, "NotFound", "nf"⟩, fun _ => ""⟩

def getEnv1 : GetYamlEnv :=
  ⟨fun _ _ _ => .ok 0, fun _ => "kind: Pod\n"⟩

def scaleEnvW : ScaleEnv :=
  ⟨fun _ _ => .ok ⟨some 2, 7⟩, fun _ _ _ => .ok ()⟩

instance : IsTotal String (fun a b : String => a ≤ b) :=
  ⟨fun a b => le_total a b⟩

instance : IsTrans String (fun a b : String => a ≤ b) :=
  ⟨fun _ _ _ h₁ h₂ => le_trans h₁ h₂⟩

instance : IsAntisymm String (fun a b : String => a ≤ b) :=
  ⟨fun _ _ h₁ h₂ => le_antisymm h₁ h₂⟩

/-- Concrete fixture: a pod scheduled on node `node-b`. -/
def pod1 : KPod :=
  { name := "p1", ns := "default", node_name := some "node-b", phase := "Running" }

/-- Concrete fixture: an unscheduled (pending) pod, `spec.node_name` absent. -/
def podU : KPod :=
  { name := "pending", ns := "default", node_name := none, phase := "Pending" }

/-- Concrete fixture: node list returned by the API in non-alphabetical
order; `node-a` has no scheduled pod. -/
def nodesW : List KNode :=
  [{ name := "node-b", conditions := [{ ctype := "Ready", status := "True" }] },
   { name := "node-a", conditions := [] }]

/-- Concrete fixture: the empty-group node. -/
def ndA : KNode := { name := "node-a", conditions := [] }

/-! ## Dispatch layer (`server.py`, `call_tool`) -/

/-- A loosely-typed argument value (string, integer, boolean, absent
(`None`), or a nested mapping).  Nested mappings (only the `labels`
argument) are forwarded opaquely by the dispatcher, so their contents
are abstracted to an identifier. -/
inductive Value where
  | str (s : String)
  | int (n : Int)
  | bool (b : Bool)
  | vnone
  | obj (payload : Nat)
deriving DecidableEq, Repr

/-- Python `str()` of an argument value, as used by the f-string in the
dispatch error handler.  The rendering of a nested mapping is
abstracted. -/
def pyStrV : Value → String
  | .str s => s
  | .int n => toString n
  | .bool b => if b then "True" else "False"
  | .vnone => "None"
  | .obj _ => "<dict>"

/-- An exception reaching the dispatch boundary: `KeyError(key)` from a
missing required argument (`arguments["key"]`), or any other failure,
carrying its `str()` rendering.  `str(KeyError(k))` is `repr(k)`,
i.e. the key in quotes. -/
inductive Exn where
  | keyError (k : String)
  | err (msg : String)
deriving DecidableEq, Repr

/-- Python `str()` of an exception. -/
def pyStrExn : Exn → String
  | .keyError k => "'" ++ k ++ "'"
  | .err m => m

/-- The argument bag: a string-keyed mapping. -/
def ArgBag : Type := List (String × Value)

/-- `arguments["k"]`: raises `KeyError(k)` when absent. -/
def getReq (args : ArgBag) (k : String) : Except Exn Value :=
  match List.lookup k args with
  | some v => .ok v
  | none => .error (.keyError k)

/-- `arguments.get("k", default)`. -/
def getOpt (args : ArgBag) (k : String) (d : Value) : Value :=
  (List.lookup k args).getD d

/-- The operations the dispatcher can invoke, as opaque fallible
functions of the argument values the dispatcher passes them (the tool
modules `pod_tools`, `deployment_tools`, …).  An `Except.error` models
the call raising. -/
structure ToolEnv where
  list_pods : Value → Except Exn String
  get_pod_logs : Value → Value → Value → Except Exn String
  describe_pod : Value → Value → Except Exn String
  list_deployments : Value → Except Exn String
  scale_deployment : Value → Value → Value → Except Exn String
  restart_deployment : Value → Value → Except Exn String
  apply_yaml : Value → Except Exn String
  get_yaml : Value → Value → Value → Except Exn String
  list_events : Value → Value → Except Exn String
  list_services : Value → Except Exn String
  describe_service : Value → Value → Except Exn String
  list_configmaps : Value → Except Exn String
  get_configmap : Value → Value → Except Exn String
  list_secrets : Value → Except Exn String
  get_secret : Value → Value → Value → Except Exn String
  list_namespaces : Unit → Except Exn String
  create_namespace : Value → Value → Except Exn String
  delete_namespace : Value → Except Exn String
  list_nodes : Unit → Except Exn String
  describe_node : Value → Except Exn String
  cluster_info : Unit → Except Exn String
  list_pods_by_node : Value → Except Exn String
  list_jobs : Value → Except Exn String
  describe_job : Value → Value → Except Exn String
  list_cronjobs : Value → Except Exn String
  delete_job : Value → Value → Except Exn String

/-- Tag an escaping exception with the value of the local variable
`name` at the point it is raised (several branches rebind `name` to the
resource name before invoking the tool, and the `except` handler
interpolates the current binding). -/
def tagE {α : Type} (n : String) : Except Exn α → Except (String × Exn) α
  | .ok a => .ok a
  | .error e => .error (n, e)

/-- The body of the `try` block of `call_tool` (`server.py` lines
488–642): the `if/elif` chain on the tool name.  Required arguments are
extracted with `arguments["k"]` (which raises `KeyError` when missing)
before the tool call; optional arguments use `arguments.get`.  In the
branches that execute `name = arguments["name"]`, a failure of the tool
call itself is tagged with the rebound resource name. -/
def callToolBody (env : ToolEnv) (name : String) (args : ArgBag) :
    Except (String × Exn) String :=
  if name = "list_pods" then
    tagE name (env.list_pods (getOpt args "namespace" (.str "default")))
  else if name = "get_pod_logs" then
    match getReq args "pod_name" with
    | .error e => .error (name, e)
    | .ok pod_name =>
      tagE name (env.get_pod_logs pod_name
        (getOpt args "namespace" (.str "default")) (getOpt args "tail" (.int 100)))
  else if name = "describe_pod" then
    match getReq args "pod_name" with
    | .error e => .error (name, e)
    | .ok pod_name =>
      tagE name (env.describe_pod pod_name (getOpt args "namespace" (.str "default")))
  else if name = "list_deployments" then
    tagE name (env.list_deployments (getOpt args "namespace" (.str "default")))
  else if name = "scale_deployment" then
    match getReq args "deployment_name" with
    | .error e => .error (name, e)
    | .ok deployment_name =>
      match getReq args "replicas" with
      | .error e => .error (name, e)
      | .ok replicas =>
        tagE name (env.scale_deployment deployment_name replicas
          (getOpt args "namespace" (.str "default")))
  else if name = "restart_deployment" then
    match getReq args "deployment_name" with
    | .error e => .error (name, e)
    | .ok deployment_name =>
      tagE name (env.restart_deployment deployment_name
        (getOpt args "namespace" (.str "default")))
  else if name = "apply_yaml" then
    match getReq args "yaml_content" with
    | .error e => .error (name, e)
    | .ok yaml_content => tagE name (env.apply_yaml yaml_content)
  else if name = "get_yaml" then
    match getReq args "kind" with
    | .error e => .error (name, e)
    | .ok kind =>
      match getReq args "name" with
      | .error e => .error (name, e)
      | .ok nameV =>
        tagE (pyStrV nameV) (env.get_yaml kind nameV (getOpt args "namespace" .vnone))
  else if name = "list_events" then
    tagE name (env.list_events (getOpt args "namespace" .vnone)
      (getOpt args "limit" (.int 50)))
  else if name = "list_services" then
    tagE name (env.list_services (getOpt args "namespace" (.str "default")))
  else if name = "describe_service" then
    match getReq args "service_name" with
    | .error e => .error (name, e)
    | .ok service_name =>
      tagE name (env.describe_service service_name
        (getOpt args "namespace" (.str "default")))
  else if name = "list_configmaps" then
    tagE name (env.list_configmaps (getOpt args "namespace" (.str "default")))
  else if name = "get_configmap" then
    match getReq args "name" with
    | .error e => .error (name, e)
    | .ok nameV =>
      tagE (pyStrV nameV) (env.get_configmap nameV
        (getOpt args "namespace" (.str "default")))
  else if name = "list_secrets" then
    tagE name (env.list_secrets (getOpt args "namespace" (.str "default")))
  else if name = "get_secret" then
    match getReq args "name" with
    | .error e => .error (name, e)
    | .ok nameV =>
      tagE (pyStrV nameV) (env.get_secret nameV
        (getOpt args "namespace" (.str "default")) (getOpt args "decode" (.bool true)))
  else if name = "list_namespaces" then
    tagE name (env.list_namespaces ())
  else if name = "create_namespace" then
    match getReq args "name" with
    | .error e => .error (name, e)
    | .ok nameV =>
      tagE (pyStrV nameV) (env.create_namespace nameV (getOpt args "labels" .vnone))
  else if name = "delete_namespace" then
    match getReq args "name" with
    | .error e => .error (name, e)
    | .ok nameV => tagE (pyStrV nameV) (env.delete_namespace nameV)
  else if name = "list_nodes" then
    tagE name (env.list_nodes ())
  else if name = "describe_node" then
    match getReq args "node_name" with
    | .error e => .error (name, e)
    | .ok node_name => tagE name (env.describe_node node_name)
  else if name = "cluster_info" then
    tagE name (env.cluster_info ())
  else if name = "list_pods_by_node" then
    tagE name (env.list_pods_by_node (getOpt args "namespace" .vnone))
  else if name = "list_jobs" then
    tagE name (env.list_jobs (getOpt args "namespace" (.str "default")))
  else if name = "describe_job" then
    match getReq args "job_name" with
    | .error e => .error (name, e)
    | .ok job_name =>
      tagE name (env.describe_job job_name (getOpt args "namespace" (.str "default")))
  else if name = "list_cronjobs" then
    tagE name (env.list_cronjobs (getOpt args "namespace" (.str "default")))
  else if name = "delete_job" then
    match getReq args "job_name" with
    | .error e => .error (name, e)
    | .ok job_name =>
      tagE name (env.delete_job job_name (getOpt args "namespace" (.str "default")))
  else
    .ok ("Unknown tool: " ++ name)

/-- The dispatch entry point `call_tool` (`server.py` lines 486–646):
the `try` body, with any escaping exception converted by the outer
handler into `f"Error executing tool {name}: {str(e)}"`.  A total
function: every invocation returns a textual Result. -/
def call_tool (env : ToolEnv) (name : String) (args : ArgBag) : String :=
  match callToolBody env name args with
  | .ok t => t
  | .error (n, e) => "Error executing tool " ++ n ++ ": " ++ pyStrExn e

/-- The registered tool names (`server.py` `list_tools`, lines 40–482). -/
def registeredTools : List String :=
  ["list_pods", "get_pod_logs", "describe_pod", "list_deployments",
   "scale_deployment", "restart_deployment", "apply_yaml", "get_yaml",
   "list_events", "list_services", "describe_service", "list_configmaps",
   "get_configmap", "list_secrets", "get_secret", "list_namespaces",
   "create_namespace", "delete_namespace", "list_nodes", "describe_node",
   "cluster_info", "list_pods_by_node", "list_jobs", "describe_job",
   "list_cronjobs", "delete_job"]

/-- The required arguments of each operation, in extraction order
(`server.py` `call_tool` bracket accesses; also declared in the
`required` fields of `list_tools`). -/
def requiredKeys (name : String) : List String :=
  if name = "get_pod_logs" then ["pod_name"]
  else if name = "describe_pod" then ["pod_name"]
  else if name = "scale_deployment" then ["deployment_name", "replicas"]
  else if name = "restart_deployment" then ["deployment_name"]
  else if name = "apply_yaml" then ["yaml_content"]
  else if name = "get_yaml" then ["kind", "name"]
  else if name = "describe_service" then ["service_name"]
  else if name = "get_configmap" then ["name"]
  else if name = "get_secret" then ["name"]
  else if name = "create_namespace" then ["name"]
  else if name = "delete_namespace" then ["name"]
  else if name = "describe_node" then ["node_name"]
  else if name = "describe_job" then ["job_name"]
  else if name = "delete_job" then ["job_name"]
  else []

/-- The first required argument of `name` missing from `args` — the one
whose `arguments["k"]` access raises first. -/
def firstMissing (name : String) (args : ArgBag) : Option String :=
  (requiredKeys name).find? (fun k => (List.lookup k args).isNone)

/-- A tool environment where every operation succeeds with an empty
report. -/
def envOk : ToolEnv where
  list_pods := fun _ => .ok ""
  get_pod_logs := fun _ _ _ => .ok ""
  describe_pod := fun _ _ => .ok ""
  list_deployments := fun _ => .ok ""
  scale_deployment := fun _ _ _ => .ok ""
  restart_deployment := fun _ _ => .ok ""
  apply_yaml := fun _ => .ok ""
  get_yaml := fun _ _ _ => .ok ""
  list_events := fun _ _ => .ok ""
  list_services := fun _ => .ok ""
  describe_service := fun _ _ => .ok ""
  list_configmaps := fun _ => .ok ""
  get_configmap := fun _ _ => .ok ""
  list_secrets := fun _ => .ok ""
  get_secret := fun _ _ _ => .ok ""
  list_namespaces := fun _ => .ok ""
  create_namespace := fun _ _ => .ok ""
  delete_namespace := fun _ => .ok ""
  list_nodes := fun _ => .ok ""
  describe_node := fun _ => .ok ""
  cluster_info := fun _ => .ok ""
  list_pods_by_node := fun _ => .ok ""
  list_jobs := fun _ => .ok ""
  describe_job := fun _ _ => .ok ""
  list_cronjobs := fun _ => .ok ""
  delete_job := fun _ _ => .ok ""

/-- A tool environment where `list_pods` raises. -/
def envBoom : ToolEnv :=
  { envOk with list_pods := fun _ => .error (.err "boom") }

/-! ## Helper lemmas: stability of insertion sort under `filter` -/

theorem filter_orderedInsert_of_forall {α : Type} {r : α → α → Prop} [DecidableRel r]
    (p : α → Bool) (x : α) (l : List α)
    (hx : ∀ b ∈ l, p b = true → r x b) (hpx : p x = true) :
    (l.orderedInsert r x).filter p = x :: l.filter p := by
  induction l with
  | nil => simp [List.orderedInsert, hpx]
  | cons b l ih =>
    simp only [List.orderedInsert]
    by_cases hrb : r x b
    · rw [if_pos hrb]
      simp [List.filter_cons, hpx]
    · rw [if_neg hrb]
      have hpb : p b = false := by
        cases h : p b with
        | false => rfl
        | true => exact absurd (hx b (List.mem_cons_self b l) h) hrb
      simp only [List.filter_cons, hpb, Bool.false_eq_true, if_false]
      exact ih fun c hc hpc => hx c (List.mem_cons_of_mem _ hc) hpc

theorem filter_orderedInsert_of_neg {α : Type} {r : α → α → Prop} [DecidableRel r]
    (p : α → Bool) (x : α) (l : List α) (hpx : p x = false) :
    (l.orderedInsert r x).filter p = l.filter p := by
  induction l with
  | nil => simp [List.orderedInsert, hpx]
  | cons b l ih =>
    simp only [List.orderedInsert]
    by_cases hrb : r x b
    · rw [if_pos hrb]
      simp [List.filter_cons, hpx]
    · rw [if_neg hrb]
      simp only [List.filter_cons, ih]

theorem filter_insertionSort {α : Type} (r : α → α → Prop) [DecidableRel r]
    (p : α → Bool) (hmut : ∀ a b, p a = true → p b = true → r a b) (l : List α) :
    (l.insertionSort r).filter p = l.filter p := by
  induction l with
  | nil => rfl
  | cons b l ih =>
    simp only [List.insertionSort]
    cases hpb : p b with
    | true =>
      rw [filter_orderedInsert_of_forall p b _ (fun c _ hpc => hmut b c hpb hpc) hpb,
        List.filter_cons, hpb, ih]
      simp
    | false =>
      rw [filter_orderedInsert_of_neg p b _ hpb, List.filter_cons, hpb, ih]
      simp

/-! ## Helper lemmas: the insertion-ordered grouping dict -/

theorem lookup_cons_str {β : Type} (k a : String) (b : β) (es : List (String × β)) :
    ((k, b) :: es).lookup a = if a = k then some b else es.lookup a := by
  by_cases h : a = k
  · subst h; simp [List.lookup]
  · simp [List.lookup, beq_false_of_ne h, h]

theorem lookup_addPod (m : List (String × List KPod)) (k : String) (p : KPod)
    (k' : String) :
    (addPod m k p).lookup k' =
      if k' = k then some (((m.lookup k).getD []) ++ [p]) else m.lookup k' := by
  induction m with
  | nil =>
    simp only [addPod, lookup_cons_str, List.lookup_nil, Option.getD_none,
      List.nil_append]
  | cons kv rest ih =>
    obtain ⟨k₀, ps₀⟩ := kv
    simp only [addPod]
    by_cases h₀ : k₀ = k
    · subst h₀
      rw [if_pos rfl]
      by_cases h : k' = k₀ <;> simp [h, lookup_cons_str]
    · rw [if_neg h₀]
      rw [lookup_cons_str]
      by_cases h : k' = k₀
      · subst h
        have hk : ¬ k' = k := fun hh => h₀ (hh ▸ rfl)
        rw [if_pos rfl, if_neg hk, lookup_cons_str, if_pos rfl]
      · rw [if_neg h, ih]
        by_cases hk : k' = k
        · rw [if_pos hk, if_pos hk]
          have hne : ¬ k = k₀ := fun hh => h (hk.trans hh)
          rw [lookup_cons_str, if_neg hne]
        · rw [if_neg hk, if_neg hk, lookup_cons_str, if_neg h]

theorem keys_addPod_mem {m : List (String × List KPod)} {k : String} (p : KPod)
    (h : k ∈ m.map Prod.fst) :
    (addPod m k p).map Prod.fst = m.map Prod.fst := by
  induction m with
  | nil => simp at h
  | cons kv rest ih =>
    obtain ⟨k₀, ps₀⟩ := kv
    simp only [addPod]
    by_cases h₀ : k₀ = k
    · rw [if_pos h₀]; simp
    · rw [if_neg h₀]
      simp only [List.map_cons] at h ⊢
      rcases List.mem_cons.mp h with h | h
      · exact absurd h.symm h₀
      · rw [ih h]

theorem keys_addPod_not_mem {m : List (String × List KPod)} {k : String} (p : KPod)
    (h : k ∉ m.map Prod.fst) :
    (addPod m k p).map Prod.fst = m.map Prod.fst ++ [k] := by
  induction m with
  | nil => simp [addPod]
  | cons kv rest ih =>
    obtain ⟨k₀, ps₀⟩ := kv
    simp only [addPod]
    have h₀ : ¬ k₀ = k := by
      intro hk
      exact h (by simp [hk])
    rw [if_neg h₀]
    simp only [List.map_cons, List.cons_append]
    rw [ih (fun hk => h (by simp [hk]))]

theorem nodup_keys_addPod {m : List (String × List KPod)} {k : String} (p : KPod)
    (h : (m.map Prod.fst).Nodup) :
    ((addPod m k p).map Prod.fst).Nodup := by
  by_cases hm : k ∈ m.map Prod.fst
  · rw [keys_addPod_mem p hm]; exact h
  · rw [keys_addPod_not_mem p hm]
    simp [List.nodup_append, h, hm]

theorem nodup_keys_groupStep {m : List (String × List KPod)} (p : KPod)
    (h : (m.map Prod.fst).Nodup) :
    ((groupStep m p).map Prod.fst).Nodup := by
  cases hq : p.node_name with
  | none => simpa only [groupStep, hq] using h
  | some n =>
    by_cases hn : n = ""
    · simpa only [groupStep, hq, if_pos hn] using h
    · simpa only [groupStep, hq, if_neg hn] using nodup_keys_addPod p h

theorem nodup_keys_foldl_groupStep :
    ∀ (pods : List KPod) (m : List (String × List KPod)),
      (m.map Prod.fst).Nodup → ((pods.foldl groupStep m).map Prod.fst).Nodup := by
  intro pods
  induction pods with
  | nil => intro m h; exact h
  | cons p rest ih =>
    intro m h
    simp only [List.foldl_cons]
    exact ih _ (nodup_keys_groupStep p h)

theorem keys_addEmptyNodes_mem_iff :
    ∀ (nodes : List KNode) (m : List (String × List KPod)) (a : String),
      a ∈ (addEmptyNodes m nodes).map Prod.fst
        ↔ a ∈ m.map Prod.fst ∨ a ∈ nodes.map KNode.name := by
  intro nodes
  induction nodes with
  | nil => intro m a; simp [addEmptyNodes]
  | cons nd rest ih =>
    intro m a
    simp only [addEmptyNodes, List.foldl_cons] at ih ⊢
    by_cases hc : nd.name ∈ m.map Prod.fst
    · rw [if_pos hc, ih]
      simp only [List.map_cons, List.mem_cons]
      constructor
      · rintro (h | h)
        · exact Or.inl h
        · exact Or.inr (Or.inr h)
      · rintro (h | h | h)
        · exact Or.inl h
        · exact Or.inl (h ▸ hc)
        · exact Or.inr h
    · rw [if_neg hc, ih]
      simp only [List.map_append, List.map_cons, List.mem_append, List.mem_cons,
        List.map_nil, List.mem_singleton]
      tauto

theorem nodup_keys_addEmptyNodes :
    ∀ (nodes : List KNode) (m : List (String × List KPod)),
      (m.map Prod.fst).Nodup → ((addEmptyNodes m nodes).map Prod.fst).Nodup := by
  intro nodes
  induction nodes with
  | nil => intro m h; exact h
  | cons nd rest ih =>
    intro m h
    simp only [addEmptyNodes, List.foldl_cons] at ih ⊢
    by_cases hc : nd.name ∈ m.map Prod.fst
    · rw [if_pos hc]; exact ih m h
    · rw [if_neg hc]
      apply ih
      simp [List.nodup_append, h, hc]

theorem nodup_keys_podsByNode (nodes : List KNode) (pods : List KPod)
    (ns : Option String) :
    ((podsByNode nodes pods ns).map Prod.fst).Nodup := by
  unfold podsByNode
  exact nodup_keys_addEmptyNodes nodes _
    (nodup_keys_foldl_groupStep _ [] (by simp))

theorem mem_keys_podsByNode_iff (nodes : List KNode) (pods : List KPod)
    (ns : Option String) (a : String) :
    a ∈ (podsByNode nodes pods ns).map Prod.fst
      ↔ a ∈ ((groupPods (if optTruthy ns then
            pods.filter (fun p => p.ns == ns.getD "") else pods)).map Prod.fst)
        ∨ a ∈ nodes.map KNode.name := by
  unfold podsByNode groupPods
  exact keys_addEmptyNodes_mem_iff nodes _ a

theorem lookup_append_single (m : List (String × List KPod)) (n k : String)
    (v ps : List KPod) :
    (m ++ [(n, v)]).lookup k = some ps → m.lookup k = some ps ∨ ps = v := by
  induction m with
  | nil =>
    intro h
    rw [List.nil_append, lookup_cons_str] at h
    by_cases hk : k = n
    · rw [if_pos hk] at h
      injection h with h
      exact Or.inr h.symm
    · rw [if_neg hk] at h
      simp [List.lookup] at h
  | cons kv rest ih =>
    obtain ⟨k₀, ps₀⟩ := kv
    intro h
    rw [List.cons_append, lookup_cons_str] at h
    by_cases hk : k = k₀
    · rw [if_pos hk] at h
      left
      rw [lookup_cons_str, if_pos hk]
      exact h
    · rw [if_neg hk] at h
      rcases ih h with h' | h'
      · left
        rw [lookup_cons_str, if_neg hk]
        exact h'
      · exact Or.inr h'

theorem lookup_append_of_some (m m' : List (String × List KPod)) (k : String)
    (ps : List KPod) :
    m.lookup k = some ps → (m ++ m').lookup k = some ps := by
  induction m with
  | nil => intro h; simp [List.lookup] at h
  | cons kv rest ih =>
    obtain ⟨k₀, ps₀⟩ := kv
    intro h
    rw [lookup_cons_str] at h
    rw [List.cons_append, lookup_cons_str]
    by_cases hk : k = k₀
    · rwa [if_pos hk] at h ⊢
    · rw [if_neg hk] at h ⊢
      exact ih h

theorem lookup_addEmptyNodes_cases :
    ∀ (nodes : List KNode) (m : List (String × List KPod)) (k : String)
      (ps : List KPod),
      (addEmptyNodes m nodes).lookup k = some ps →
        m.lookup k = some ps ∨ ps = [] := by
  intro nodes
  induction nodes with
  | nil => intro m k ps h; exact Or.inl h
  | cons nd rest ih =>
    intro m k ps h
    simp only [addEmptyNodes, List.foldl_cons] at ih h
    by_cases hc : nd.name ∈ m.map Prod.fst
    · rw [if_pos hc] at h
      exact ih m k ps h
    · rw [if_neg hc] at h
      rcases ih _ k ps h with h' | h'
      · exact lookup_append_single m nd.name k [] ps h'
      · exact Or.inr h'

theorem lookup_addEmptyNodes_of_some :
    ∀ (nodes : List KNode) (m : List (String × List KPod)) (k : String)
      (ps : List KPod),
      m.lookup k = some ps → (addEmptyNodes m nodes).lookup k = some ps := by
  intro nodes
  induction nodes with
  | nil => intro m k ps h; exact h
  | cons nd rest ih =>
    intro m k ps h
    simp only [addEmptyNodes, List.foldl_cons] at ih ⊢
    by_cases hc : nd.name ∈ m.map Prod.fst
    · rw [if_pos hc]; exact ih m k ps h
    · rw [if_neg hc]
      exact ih _ k ps (lookup_append_of_some m _ k ps h)

theorem lookup_groupStep_good (m : List (String × List KPod)) (q : KPod)
    (h : ∀ k ps, m.lookup k = some ps → ∀ p ∈ ps, p.node_name = some k ∧ k ≠ "") :
    ∀ k ps, (groupStep m q).lookup k = some ps →
      ∀ p ∈ ps, p.node_name = some k ∧ k ≠ "" := by
  intro k ps hl p hp
  cases hq : q.node_name with
  | none =>
    simp only [groupStep, hq] at hl
    exact h k ps hl p hp
  | some n =>
    by_cases hn : n = ""
    · simp only [groupStep, hq, if_pos hn] at hl
      exact h k ps hl p hp
    · simp only [groupStep, hq, if_neg hn] at hl
      rw [lookup_addPod] at hl
      by_cases hk : k = n
      · subst hk
        rw [if_pos rfl] at hl
        injection hl with hl
        subst hl
        rcases List.mem_append.mp hp with hp | hp
        · cases hml : m.lookup k with
          | none => rw [hml] at hp; simp at hp
          | some ps₀ =>
            rw [hml] at hp
            simp only [Option.getD_some] at hp
            exact h k ps₀ hml p hp
        · rw [List.mem_singleton] at hp
          subst hp
          exact ⟨hq, hn⟩
      · rw [if_neg hk] at hl
        exact h k ps hl p hp

theorem lookup_foldl_groupStep_good :
    ∀ (pods : List KPod) (m : List (String × List KPod)),
      (∀ k ps, m.lookup k = some ps → ∀ p ∈ ps, p.node_name = some k ∧ k ≠ "") →
      ∀ k ps, (pods.foldl groupStep m).lookup k = some ps →
        ∀ p ∈ ps, p.node_name = some k ∧ k ≠ "" := by
  intro pods
  induction pods with
  | nil => intro m h; exact h
  | cons q rest ih =>
    intro m h
    simp only [List.foldl_cons]
    exact ih _ (lookup_groupStep_good m q h)

theorem mem_group_groupStep_mono (m : List (String × List KPod)) (p : KPod)
    (k : String) (q : KPod) (h : q ∈ ((m.lookup k).getD [])) :
    q ∈ (((groupStep m p).lookup k).getD []) := by
  cases hq : p.node_name with
  | none => simpa only [groupStep, hq] using h
  | some n =>
    by_cases hn : n = ""
    · simpa only [groupStep, hq, if_pos hn] using h
    · simp only [groupStep, hq, if_neg hn]
      rw [lookup_addPod]
      by_cases hk : k = n
      · subst hk
        rw [if_pos rfl]
        simp only [Option.getD_some]
        exact List.mem_append_left _ h
      · rw [if_neg hk]; exact h

theorem mem_group_foldl_groupStep (k : String) (q : KPod) :
    ∀ (pods : List KPod) (m : List (String × List KPod)),
      (q ∈ ((m.lookup k).getD []) ∨ (q ∈ pods ∧ q.node_name = some k ∧ k ≠ "")) →
      q ∈ (((pods.foldl groupStep m).lookup k).getD []) := by
  intro pods
  induction pods with
  | nil =>
    intro m h
    rcases h with h | ⟨h, _⟩
    · exact h
    · simp at h
  | cons p rest ih =>
    intro m h
    simp only [List.foldl_cons]
    apply ih
    rcases h with h | ⟨hp, hnode, hk⟩
    · exact Or.inl (mem_group_groupStep_mono m p k q h)
    · rcases List.mem_cons.mp hp with rfl | hp
      · left
        simp only [groupStep, hnode, if_neg hk]
        rw [lookup_addPod, if_pos rfl]
        simp only [Option.getD_some]
        exact List.mem_append_right _ (List.mem_singleton.mpr rfl)
      · exact Or.inr ⟨hp, hnode, hk⟩

/-- C1: the events rendered by `list_events` are ordered by effective
timestamp (first non-null of first-observed / event / creation time)
descending; the sort is stable (filtering to any fixed timestamp value
returns the original API order); only the first `limit` entries appear;
the shown list is drawn from a permutation of the input; on inputs with
effective timestamps [600, 720, 660] with limit 2 the shown order is
[720, 660]; and the dispatcher defaults an absent `limit` argument
to 50. -/
theorem list_events_ordering :
    (∀ items limit, List.Pairwise eventGE (shownEvents items limit))
    ∧ (∀ items (c : Nat),
        (sortedEvents items).filter (fun e => effectiveTimestamp e == c)
          = items.filter (fun e => effectiveTimestamp e == c))
    ∧ (∀ items limit, (shownEvents items limit).length ≤ limit)
    ∧ (∀ items, List.Perm (sortedEvents items) items)
    ∧ shownEvents [evAt 600 "T1", evAt 720 "T2", evAt 660 "T3"] 2
        = [evAt 720 "T2", evAt 660 "T3"]
    ∧ (∀ args : ArgBag, List.lookup "limit" args = none →
        getOpt args "limit" (Value.int 50) = Value.int 50) := by
  refine ⟨fun items limit => ?_, fun items c => ?_, fun items limit => ?_,
    fun items => ?_, by decide, fun args hl => by simp [getOpt, hl]⟩
  · exact ((List.sorted_insertionSort eventGE items).sublist (List.take_sublist _ _))
  · exact filter_insertionSort eventGE _
      (fun a b ha hb => by
        have ha' : effectiveTimestamp a = c := by simpa using ha
        have hb' : effectiveTimestamp b = c := by simpa using hb
        simp [eventGE, ha', hb']) items
  · show ((sortedEvents items).take limit).length ≤ limit
    rw [List.length_take]
    exact min_le_left _ _
  · exact List.perm_insertionSort eventGE items

theorem groupStep_of_falsy (m : List (String × List KPod)) (p : KPod)
    (h : optTruthy p.node_name = false) : groupStep m p = m := by
  cases hq : p.node_name with
  | none => simp [groupStep, hq]
  | some n =>
    rw [hq] at h
    simp only [optTruthy, Bool.not_eq_false'] at h
    have hn : n = "" := by simpa using h
    simp [groupStep, hq, hn]

theorem foldl_groupStep_filter :
    ∀ (pods : List KPod) (m : List (String × List KPod)),
      (pods.filter (fun p => optTruthy p.node_name)).foldl groupStep m
        = pods.foldl groupStep m := by
  intro pods
  induction pods with
  | nil => intro m; rfl
  | cons p rest ih =>
    intro m
    cases hp : optTruthy p.node_name with
    | true =>
      simp only [List.filter_cons, hp, if_pos, List.foldl_cons]
      exact ih _
    | false =>
      simp only [List.filter_cons, hp, Bool.false_eq_true, if_false, List.foldl_cons]
      rw [groupStep_of_falsy m p hp]
      exact ih m

theorem podsByNode_filter_truthy (nodes : List KNode) (pods : List KPod)
    (ns : Option String) :
    podsByNode nodes (pods.filter (fun p => optTruthy p.node_name)) ns
      = podsByNode nodes pods ns := by
  cases hns : optTruthy ns with
  | false =>
    simp only [podsByNode, groupPods, hns, Bool.false_eq_true, if_false]
    rw [foldl_groupStep_filter pods []]
  | true =>
    simp only [podsByNode, groupPods, hns, if_true]
    have hcomm :
        (pods.filter (fun p => optTruthy p.node_name)).filter
            (fun p => p.ns == ns.getD "")
          = (pods.filter (fun p => p.ns == ns.getD "")).filter
              (fun p => optTruthy p.node_name) := by
      rw [List.filter_filter, List.filter_filter]
      congr 1
      funext p
      exact Bool.and_comm _ _
    rw [hcomm]
    rw [foldl_groupStep_filter _ []]

/-- C9: `list_pods_by_node` groups pods by the node they are scheduled
on (every group member carries that node's name, and every scheduled pod
surviving the namespace filter lands in its node's group); every node of
the node-list call appears among the rendered keys; the keys are sorted
lexicographically, independent of the API node order; a node whose group
is empty is rendered with the "Pods: None" marker and its block appears
in the output, which is the join of the blocks of the sorted keys. -/
theorem list_pods_by_node_grouping :
    (∀ (nodes : List KNode) (pods : List KPod) (ns : Option String),
        ∀ nd ∈ nodes, nd.name ∈ sortedNodeKeys nodes pods ns)
    ∧ (∀ nodes pods ns,
        List.Sorted (fun a b : String => a ≤ b) (sortedNodeKeys nodes pods ns))
    ∧ (∀ nodes₁ nodes₂ pods ns, List.Perm nodes₁ nodes₂ →
        sortedNodeKeys nodes₁ pods ns = sortedNodeKeys nodes₂ pods ns)
    ∧ (∀ nodes pods ns k ps, (podsByNode nodes pods ns).lookup k = some ps →
        ∀ p ∈ ps, p.node_name = some k)
    ∧ (∀ nodes pods ns q k,
        q ∈ (if optTruthy ns then pods.filter (fun p => p.ns == ns.getD "")
             else pods) →
        q.node_name = some k → k ≠ "" →
        q ∈ (((podsByNode nodes pods ns).lookup k).getD []))
    ∧ (∀ nodes pods ns nd, nd ∈ nodes →
        (podsByNode nodes pods ns).lookup nd.name = some [] →
        nodeBlock nodes (podsByNode nodes pods ns) nd.name
          = (match nodes.find? (fun n => n.name == nd.name) with
             | some nd' => "Node: " ++ nd.name ++ " (Ready=" ++ readyStatus nd' ++ ")\n"
             | none => "Node: " ++ nd.name ++ "\n") ++ "  Pods: None\n" ++ "\n"
        ∧ nodeBlock nodes (podsByNode nodes pods ns) nd.name
            ∈ (sortedNodeKeys nodes pods ns).map
                (nodeBlock nodes (podsByNode nodes pods ns)))
    ∧ (∀ nodes pods ns, podsByNode nodes pods ns ≠ [] →
        list_pods_by_node nodes pods ns
          = "Pods by Node ("
            ++ (if optTruthy ns then "namespace '" ++ ns.getD "" ++ "'"
                else "all namespaces")
            ++ "):\n\n"
            ++ String.join ((sortedNodeKeys nodes pods ns).map
                (nodeBlock nodes (podsByNode nodes pods ns)))) := by
  have hmemkeys : ∀ (nodes : List KNode) (pods : List KPod) (ns : Option String),
      ∀ nd ∈ nodes, nd.name ∈ sortedNodeKeys nodes pods ns := by
    intro nodes pods ns nd hnd
    have h1 : nd.name ∈ (podsByNode nodes pods ns).map Prod.fst :=
      (mem_keys_podsByNode_iff nodes pods ns nd.name).mpr
        (Or.inr (List.mem_map_of_mem KNode.name hnd))
    exact (List.perm_insertionSort _ _).mem_iff.mpr h1
  refine ⟨hmemkeys, fun nodes pods ns => ?_, fun nodes₁ nodes₂ pods ns hperm => ?_,
    fun nodes pods ns k ps hl p hp => ?_, fun nodes pods ns q k hq hnode hk => ?_,
    fun nodes pods ns nd hnd hempty => ?_, fun nodes pods ns hne => ?_⟩
  · exact List.sorted_insertionSort _ _
  · have nd₁ := nodup_keys_podsByNode nodes₁ pods ns
    have nd₂ := nodup_keys_podsByNode nodes₂ pods ns
    have hkeys : List.Perm ((podsByNode nodes₁ pods ns).map Prod.fst)
        ((podsByNode nodes₂ pods ns).map Prod.fst) := by
      rw [List.perm_ext_iff_of_nodup nd₁ nd₂]
      intro a
      rw [mem_keys_podsByNode_iff, mem_keys_podsByNode_iff]
      exact or_congr Iff.rfl (hperm.map KNode.name).mem_iff
    exact List.eq_of_perm_of_sorted
      (((List.perm_insertionSort _ _).trans hkeys).trans
        (List.perm_insertionSort _ _).symm)
      (List.sorted_insertionSort _ _) (List.sorted_insertionSort _ _)
  · unfold podsByNode at hl
    rcases lookup_addEmptyNodes_cases nodes _ k ps hl with h' | h'
    · exact (lookup_foldl_groupStep_good _ [] (by intro k' ps' h''; simp [List.lookup] at h'') k ps h' p hp).1
    · subst h'
      simp at hp
  · show q ∈ (((addEmptyNodes ((if optTruthy ns then
        pods.filter (fun p => p.ns == ns.getD "") else pods).foldl groupStep
          []) nodes).lookup k).getD [])
    have h1 : q ∈ (((if optTruthy ns then
        pods.filter (fun p => p.ns == ns.getD "") else pods).foldl groupStep
          []).lookup k).getD [] :=
      mem_group_foldl_groupStep k q _ [] (Or.inr ⟨hq, hnode, hk⟩)
    cases hml : ((if optTruthy ns then
        pods.filter (fun p => p.ns == ns.getD "") else pods).foldl groupStep
          []).lookup k with
    | none => rw [hml] at h1; simp at h1
    | some ps =>
      rw [hml] at h1
      rw [lookup_addEmptyNodes_of_some nodes _ k ps hml]
      exact h1
  · constructor
    · simp only [nodeBlock, hempty, Option.getD_some]
    · exact List.mem_map_of_mem _ (hmemkeys nodes pods ns nd hnd)
  · simp only [list_pods_by_node, if_neg hne, sortedNodeKeys]

/-- Witness for C9 at a concrete cluster: two nodes returned in
non-alphabetical order, one pod on `node-b`, none on `node-a`. -/
theorem list_pods_by_node_grouping_witness :
    ndA.name ∈ sortedNodeKeys nodesW [pod1] none
    ∧ nodeBlock nodesW (podsByNode nodesW [pod1] none) ndA.name
        = "Node: node-a (Ready=Unknown)\n" ++ "  Pods: None\n" ++ "\n" := by
  refine ⟨list_pods_by_node_grouping.1 nodesW [pod1] none ndA (by decide), ?_⟩
  have h := (list_pods_by_node_grouping.2.2.2.2.2.1 nodesW [pod1] none ndA
    (by decide) (by decide)).1
  rw [h]
  rfl

/-- C10: a pod with no (truthy) assigned node name is omitted entirely:
filtering such pods out of the API response does not change the output
at all, and no group of the rendered dict contains such a pod. -/
theorem list_pods_by_node_omits_unscheduled :
    (∀ (nodes : List KNode) (pods : List KPod) (ns : Option String),
        list_pods_by_node nodes (pods.filter (fun p => optTruthy p.node_name)) ns
          = list_pods_by_node nodes pods ns)
    ∧ (∀ nodes pods ns (p : KPod), optTruthy p.node_name = false →
        ∀ k ps, (podsByNode nodes pods ns).lookup k = some ps → p ∉ ps) := by
  constructor
  · intro nodes pods ns
    simp only [list_pods_by_node, sortedNodeKeys, podsByNode_filter_truthy]
  · intro nodes pods ns p hfalsy k ps hl hp
    unfold podsByNode at hl
    rcases lookup_addEmptyNodes_cases nodes _ k ps hl with h' | h'
    · have hgood := lookup_foldl_groupStep_good _ []
        (by intro k' ps' h''; simp [List.lookup] at h'') k ps h' p hp
      rw [hgood.1] at hfalsy
      simp only [optTruthy, Bool.not_eq_false'] at hfalsy
      exact hgood.2 (by simpa using hfalsy)
    · subst h'
      simp at hp

/-- Witness for C10: with an unscheduled pending pod in the API response,
the output is unchanged by dropping it, and it is in no group. -/
theorem list_pods_by_node_omits_unscheduled_witness :
    list_pods_by_node nodesW ([pod1, podU].filter (fun p => optTruthy p.node_name)) none
      = list_pods_by_node nodesW [pod1, podU] none
    ∧ ((podsByNode nodesW [pod1, podU] none).lookup "node-b" = some [pod1]
        ∧ podU ∉ [pod1]) := by
  refine ⟨list_pods_by_node_omits_unscheduled.1 nodesW [pod1, podU] none,
    by decide,
    list_pods_by_node_omits_unscheduled.2 nodesW [pod1, podU] none podU (by decide)
      "node-b" [pod1] (by decide)⟩

/-! ## Helper lemmas: distinguishing rendered messages -/

theorem head?_append_of_ne_nil' {α : Type} (l₁ l₂ : List α) (h : l₁ ≠ []) :
    (l₁ ++ l₂).head? = l₁.head? := by
  cases l₁ with
  | nil => exact absurd rfl h
  | cons a t => rfl

theorem string_head_append (a b : String) (c : Char)
    (h : a.data.head? = some c) : (a ++ b).data.head? = some c := by
  rw [String.data_append, head?_append_of_ne_nil']
  · exact h
  · intro hnil
    rw [hnil] at h
    cases h

theorem string_ne_of_head_ne (s₁ s₂ : String) (c₁ c₂ : Char)
    (h₁ : s₁.data.head? = some c₁) (h₂ : s₂.data.head? = some c₂)
    (hne : c₁ ≠ c₂) : s₁ ≠ s₂ := by
  intro h
  rw [h] at h₁
  rw [h₁] at h₂
  injection h₂ with h₂
  exact hne h₂

/-- C4: an `apply_yaml` input that parses to no documents or to only
null documents (the empty string parses to no documents) is rejected
with the local validation error, the file system is untouched, and the
result does not depend on the `kubectl` runner or the temp-file name —
the external CLI is never invoked. -/
theorem apply_yaml_validates_locally :
    ∀ (env env' : ApplyEnv) (fs : List String) (content : String)
      (docs : List (Option Nat)),
      env.parse content = .ok docs →
      (docs = [] ∨ ∀ d ∈ docs, d = none) →
      env'.parse = env.parse →
      apply_yaml env content fs = ("✗ Error: No valid resources found in YAML", fs)
      ∧ apply_yaml env' content fs = apply_yaml env content fs := by
  intro env env' fs content docs hparse hnull hsame
  have hcond : (docs.isEmpty || docs.all (fun r => r == none)) = true := by
    rcases hnull with h | h
    · subst h; rfl
    · have : docs.all (fun r => r == none) = true := by
        rw [List.all_eq_true]
        intro d hd
        exact beq_iff_eq.mpr (h d hd)
      rw [this, Bool.or_true]
  have h1 : apply_yaml env content fs
      = ("✗ Error: No valid resources found in YAML", fs) := by
    simp only [apply_yaml, hparse, hcond, if_true]
  have h2 : apply_yaml env' content fs
      = ("✗ Error: No valid resources found in YAML", fs) := by
    have hparse' : env'.parse content = .ok docs := by rw [hsame, hparse]
    simp only [apply_yaml, hparse', hcond, if_true]
  exact ⟨h1, h2.trans h1.symm⟩

/-- Witness for C4: the empty string, parsed to no documents, is
rejected without consulting the runner (two environments differing only
in runner and temp-file agree). -/
theorem apply_yaml_validates_locally_witness :
    apply_yaml applyEnvEmpty "" [] = ("✗ Error: No valid resources found in YAML", [])
    ∧ apply_yaml applyEnvEmpty' "" [] = apply_yaml applyEnvEmpty "" [] :=
  apply_yaml_validates_locally applyEnvEmpty applyEnvEmpty' [] "" [] rfl
    (Or.inl rfl) rfl

/-- C5: once validation passes (so the transient file is written), the
file is removed on every exit path — normal exit with any return code,
timeout of the 60-unit bounded wait, and missing executable — leaving
the file system as it was; a timeout produces the specific timeout
message, which differs from the generic failure message for every
possible stderr. -/
theorem apply_yaml_cleanup_and_timeout :
    ∀ (env : ApplyEnv) (fs : List String) (content : String)
      (docs : List (Option Nat)),
      env.parse content = .ok docs →
      ¬(docs = [] ∨ ∀ d ∈ docs, d = none) →
      env.tmpName ∉ fs →
      (apply_yaml env content fs).2 = fs
      ∧ (env.run env.tmpName 60 = .timedOut →
          (apply_yaml env content fs).1
            = "✗ Error: kubectl apply timed out after 60 seconds")
      ∧ (∀ errS : String,
          "✗ Error: kubectl apply timed out after 60 seconds"
            ≠ "✗ Error applying YAML:\n\n" ++ errS) := by
  intro env fs content docs hparse hval hfresh
  have hcond : (docs.isEmpty || docs.all (fun r => r == none)) = false := by
    rw [Bool.or_eq_false_iff]
    constructor
    · cases docs with
      | nil => exact absurd (Or.inl rfl) hval
      | cons d t => rfl
    · rw [Bool.eq_false_iff]
      intro hall
      apply hval
      right
      intro d hd
      exact beq_iff_eq.mp (List.all_eq_true.mp hall d hd)
  have herase : (fs ++ [env.tmpName]).erase env.tmpName = fs := by
    rw [List.erase_append_right _ hfresh]
    simp
  constructor
  · simp only [apply_yaml, hparse, hcond, Bool.false_eq_true, if_false]
    cases env.run env.tmpName 60 with
    | exited rc out err => simp [herase]
    | timedOut => simp [herase]
    | exeNotFound => simp [herase]
  constructor
  · intro htime
    simp only [apply_yaml, hparse, hcond, Bool.false_eq_true, if_false, htime]
  · intro errS h
    have hd := congrArg String.data h
    rw [String.data_append] at hd
    have ht := congrArg (List.take 8) hd
    rw [List.take_append_of_le_length (by decide)] at ht
    exact absurd ht (by decide)

/-- Witness for C5: a timing-out runner on valid one-document YAML — the
file list is restored and the timeout message is produced. -/
theorem apply_yaml_cleanup_and_timeout_witness :
    (apply_yaml applyEnvTimeout "kind: Pod" ["a.txt"]).2 = ["a.txt"]
    ∧ (apply_yaml applyEnvTimeout "kind: Pod" ["a.txt"]).1
        = "✗ Error: kubectl apply timed out after 60 seconds" :=
  have h := apply_yaml_cleanup_and_timeout applyEnvTimeout ["a.txt"] "kind: Pod"
    [some 1] rfl (by decide) (by decide)
  ⟨h.1, h.2.1 rfl⟩

/-- C6: for every supported kind, `get_yaml` with no namespace returns
the namespace-required message, and the result does not depend on the
cluster-API environment — no external call is attempted. -/
theorem get_yaml_requires_namespace :
    ∀ (env env' : GetYamlEnv) (kind name : String),
      kind ∈ supportedKinds →
      get_yaml env kind name none
          = "Namespace required for " ++ kind ++ " resources"
      ∧ get_yaml env kind name none = get_yaml env' kind name none := by
  intro env env' kind name hk
  constructor
  · simp [get_yaml, hk, optTruthy]
  · simp [get_yaml, hk, optTruthy]

/-- Witness for C6: `get_yaml("Pod", "p1")` with no namespace, under two
different cluster environments. -/
theorem get_yaml_requires_namespace_witness :
    get_yaml getEnv0 "Pod" "p1" none = "Namespace required for Pod resources"
    ∧ get_yaml getEnv0 "Pod" "p1" none = get_yaml getEnv1 "Pod" "p1" none :=
  have h := get_yaml_requires_namespace getEnv0 getEnv1 "Pod" "p1" (by decide)
  ⟨h.1, h.2⟩

/-- C7: when `scale_deployment` succeeds, the patch body sent is the
fetched deployment with its replica field overwritten by the requested
count (all other fields preserved), and the success message names the
deployment, the count, and the namespace verbatim. -/
theorem scale_deployment_read_then_patch :
    ∀ (env : ScaleEnv) (dn : String) (r : Int) (ns : String) (dep : KDeployment),
      env.read dn ns = .ok dep →
      env.patch dn ns { dep with replicas := some r } = .ok () →
      (scale env dn r ns).1
        = "Successfully scaled deployment '" ++ dn ++ "' to " ++ toString r
          ++ " replicas in namespace '" ++ ns ++ "'"
      ∧ ∃ body, (scale env dn r ns).2 = some body
          ∧ body.replicas = some r ∧ body.rest = dep.rest := by
  intro env dn r ns dep hread hpatch
  have h : scale env dn r ns
      = ("Successfully scaled deployment '" ++ dn ++ "' to " ++ toString r
          ++ " replicas in namespace '" ++ ns ++ "'",
         some { dep with replicas := some r }) := by
    simp only [scale, hread, hpatch]
  rw [h]
  exact ⟨rfl, { dep with replicas := some r }, rfl, rfl, rfl⟩

/-- Witness for C7: `scale_deployment("web", replicas=5,
namespace="default")` against a deployment currently at 2 replicas. -/
theorem scale_deployment_read_then_patch_witness :
    (scale scaleEnvW "web" 5 "default").1
      = "Successfully scaled deployment 'web' to 5 replicas in namespace 'default'"
    ∧ ∃ body, (scale scaleEnvW "web" 5 "default").2 = some body
        ∧ body.replicas = some 5 ∧ body.rest = 7 :=
  have h := scale_deployment_read_then_patch scaleEnvW "web" 5 "default"
    ⟨some 2, 7⟩ rfl rfl
  ⟨h.1, h.2⟩

/-- C8: a 409 conflict from the cluster is rendered as the distinguished
already-exists message; that message differs from the generic error
message for every name, reason and body; and against a cluster fixture,
creating the same namespace twice yields the success message then the
already-exists message. -/
theorem create_namespace_conflict :
    (∀ (env : CreateNsEnv) (name : String)
        (labels : Option (List (String × String))) (e : ApiErr),
        env.create name (labels.getD []) = .error e →
        e.status = 409 →
        create_namespace env name labels
          = "Namespace '" ++ name ++ "' already exists")
    ∧ (∀ name reason body : String,
        "Namespace '" ++ name ++ "' already exists"
          ≠ "Error creating namespace: " ++ reason ++ " - " ++ body)
    ∧ (∀ (st : List String) (name : String), name ∉ st →
        create_namespace (nsCreateOnCluster st) name none
          = "Successfully created namespace '" ++ name ++ "'"
        ∧ create_namespace (nsCreateOnCluster (st ++ [name])) name none
          = "Namespace '" ++ name ++ "' already exists") := by
  refine ⟨fun env name labels e hcreate h409 => ?_,
    fun name reason body => ?_, fun st name hfree => ⟨?_, ?_⟩⟩
  · simp only [create_namespace, hcreate, h409, if_pos]
  · apply string_ne_of_head_ne _ _ 'N' 'E'
    · exact string_head_append _ _ _ (string_head_append _ _ _ (by decide))
    · exact string_head_append _ _ _
        (string_head_append _ _ _ (string_head_append _ _ _ (by decide)))
    · decide
  · simp only [create_namespace, nsCreateOnCluster, Option.getD_none]
    rw [if_neg hfree]
  · simp only [create_namespace, nsCreateOnCluster, Option.getD_none]
    rw [if_pos (List.mem_append_right st (List.mem_singleton.mpr rfl))]
    simp

/-- Witness for C8: creating `team-a` twice on an initially empty
cluster. -/
theorem create_namespace_conflict_witness :
    create_namespace (nsCreateOnCluster []) "team-a" none
      = "Successfully created namespace 'team-a'"
    ∧ create_namespace (nsCreateOnCluster ["team-a"]) "team-a" none
      = "Namespace 'team-a' already exists" := by
  have h := create_namespace_conflict.2.2 [] "team-a" (by decide)
  exact ⟨h.1, by rw [List.nil_append] at h; exact h.2⟩

/-- Witness for C1's hypothesis-bearing conjunct: an argument bag
without `limit` dispatches 50, and the concrete ordering example. -/
theorem list_events_ordering_witness :
    getOpt [] "limit" (Value.int 50) = Value.int 50
    ∧ shownEvents [evAt 600 "T1", evAt 720 "T2", evAt 660 "T3"] 2
        = [evAt 720 "T2", evAt 660 "T3"] :=
  ⟨list_events_ordering.2.2.2.2.2 [] rfl, list_events_ordering.2.2.2.2.1⟩

/-! ## Helper lemmas: locating the first missing required argument -/

theorem find?_single_missing {args : ArgBag} {key k : String}
    (h : List.find? (fun k' => (List.lookup k' args).isNone) [key] = some k) :
    k = key ∧ List.lookup key args = none := by
  cases hl : List.lookup key args with
  | some v => simp [List.find?, hl] at h
  | none =>
    simp [List.find?, hl] at h
    exact ⟨h.symm, rfl⟩

theorem find?_pair_missing {args : ArgBag} {k₁ k₂ k : String}
    (h : List.find? (fun k' => (List.lookup k' args).isNone) [k₁, k₂] = some k) :
    (k = k₁ ∧ List.lookup k₁ args = none)
    ∨ (k = k₂ ∧ (∃ v, List.lookup k₁ args = some v)
        ∧ List.lookup k₂ args = none) := by
  cases hl₁ : List.lookup k₁ args with
  | none =>
    left
    simp [List.find?, hl₁] at h
    exact ⟨h.symm, rfl⟩
  | some v =>
    right
    cases hl₂ : List.lookup k₂ args with
    | none =>
      simp [List.find?, hl₁, hl₂] at h
      exact ⟨h.symm, ⟨v, rfl⟩, rfl⟩
    | some w => simp [List.find?, hl₁, hl₂] at h

/-- C2: the dispatch boundary always returns a textual Result — an
unregistered operation name is answered with the "Unknown tool" text
(for any environment and argument bag), and any failure escaping the
invoked operation or the argument extraction is caught and rendered as
a text starting with the error indicator. -/
theorem call_tool_total_dispatch :
    (∀ (env : ToolEnv) (name : String) (args : ArgBag),
        name ∉ registeredTools →
        call_tool env name args = "Unknown tool: " ++ name)
    ∧ (∀ (env : ToolEnv) (name : String) (args : ArgBag) (n : String) (e : Exn),
        callToolBody env name args = .error (n, e) →
        ∃ rest, call_tool env name args = "Error executing tool " ++ rest) := by
  constructor
  · intro env name args hname
    have hne : ∀ s, s ∈ registeredTools → ¬ name = s :=
      fun s hs hh => hname (by rw [hh]; exact hs)
    have hbody : callToolBody env name args = .ok ("Unknown tool: " ++ name) := by
      unfold callToolBody
      rw [if_neg (hne "list_pods" (by decide)),
        if_neg (hne "get_pod_logs" (by decide)),
        if_neg (hne "describe_pod" (by decide)),
        if_neg (hne "list_deployments" (by decide)),
        if_neg (hne "scale_deployment" (by decide)),
        if_neg (hne "restart_deployment" (by decide)),
        if_neg (hne "apply_yaml" (by decide)),
        if_neg (hne "get_yaml" (by decide)),
        if_neg (hne "list_events" (by decide)),
        if_neg (hne "list_services" (by decide)),
        if_neg (hne "describe_service" (by decide)),
        if_neg (hne "list_configmaps" (by decide)),
        if_neg (hne "get_configmap" (by decide)),
        if_neg (hne "list_secrets" (by decide)),
        if_neg (hne "get_secret" (by decide)),
        if_neg (hne "list_namespaces" (by decide)),
        if_neg (hne "create_namespace" (by decide)),
        if_neg (hne "delete_namespace" (by decide)),
        if_neg (hne "list_nodes" (by decide)),
        if_neg (hne "describe_node" (by decide)),
        if_neg (hne "cluster_info" (by decide)),
        if_neg (hne "list_pods_by_node" (by decide)),
        if_neg (hne "list_jobs" (by decide)),
        if_neg (hne "describe_job" (by decide)),
        if_neg (hne "list_cronjobs" (by decide)),
        if_neg (hne "delete_job" (by decide))]
    unfold call_tool
    rw [hbody]
  · intro env name args n e hbody
    refine ⟨n ++ ": " ++ pyStrExn e, ?_⟩
    unfold call_tool
    rw [hbody]
    show "Error executing tool " ++ n ++ ": " ++ pyStrExn e
      = "Error executing tool " ++ (n ++ ": " ++ pyStrExn e)
    apply String.ext
    simp [String.data_append]

/-- Witness for C2: an unregistered name, and a raising `list_pods`. -/
theorem call_tool_total_dispatch_witness :
    call_tool envOk "frobnicate" [] = "Unknown tool: frobnicate"
    ∧ ∃ rest, call_tool envBoom "list_pods" [] = "Error executing tool " ++ rest :=
  ⟨call_tool_total_dispatch.1 envOk "frobnicate" [] (by decide),
   call_tool_total_dispatch.2 envBoom "list_pods" [] "list_pods" (.err "boom") rfl⟩

set_option maxHeartbeats 2000000 in
/-- C3: when the first required argument of a registered operation is
missing from the bag, the dispatcher raises `KeyError` during argument
extraction — before the operation body runs, so the Result is the same
under every tool environment — and the returned text names the missing
key. -/
theorem call_tool_missing_required_arg :
    ∀ (env env' : ToolEnv) (name : String) (args : ArgBag) (k : String),
      firstMissing name args = some k →
      call_tool env name args
        = "Error executing tool " ++ name ++ ": " ++ ("'" ++ k ++ "'")
      ∧ call_tool env name args = call_tool env' name args := by
  intro env env' name args k h
  by_cases hb1 : name = "get_pod_logs"
  · subst hb1
    obtain ⟨rfl, hl⟩ := find?_single_missing
      (by simpa [firstMissing, requiredKeys] using h)
    exact ⟨by simp [call_tool, callToolBody, getReq, pyStrExn, hl],
      by simp [call_tool, callToolBody, getReq, pyStrExn, hl]⟩
  by_cases hb2 : name = "describe_pod"
  · subst hb2
    obtain ⟨rfl, hl⟩ := find?_single_missing
      (by simpa [firstMissing, requiredKeys] using h)
    exact ⟨by simp [call_tool, callToolBody, getReq, pyStrExn, hl],
      by simp [call_tool, callToolBody, getReq, pyStrExn, hl]⟩
  by_cases hb3 : name = "scale_deployment"
  · subst hb3
    rcases find?_pair_missing (by simpa [firstMissing, requiredKeys] using h) with
      ⟨rfl, hl⟩ | ⟨rfl, ⟨v, hl₁⟩, hl₂⟩
    · exact ⟨by simp [call_tool, callToolBody, getReq, pyStrExn, hl],
        by simp [call_tool, callToolBody, getReq, pyStrExn, hl]⟩
    · exact ⟨by simp [call_tool, callToolBody, getReq, pyStrExn, hl₁, hl₂],
        by simp [call_tool, callToolBody, getReq, pyStrExn, hl₁, hl₂]⟩
  by_cases hb4 : name = "restart_deployment"
  · subst hb4
    obtain ⟨rfl, hl⟩ := find?_single_missing
      (by simpa [firstMissing, requiredKeys] using h)
    exact ⟨by simp [call_tool, callToolBody, getReq, pyStrExn, hl],
      by simp [call_tool, callToolBody, getReq, pyStrExn, hl]⟩
  by_cases hb5 : name = "apply_yaml"
  · subst hb5
    obtain ⟨rfl, hl⟩ := find?_single_missing
      (by simpa [firstMissing, requiredKeys] using h)
    exact ⟨by simp [call_tool, callToolBody, getReq, pyStrExn, hl],
      by simp [call_tool, callToolBody, getReq, pyStrExn, hl]⟩
  by_cases hb6 : name = "get_yaml"
  · subst hb6
    rcases find?_pair_missing (by simpa [firstMissing, requiredKeys] using h) with
      ⟨rfl, hl⟩ | ⟨rfl, ⟨v, hl₁⟩, hl₂⟩
    · exact ⟨by simp [call_tool, callToolBody, getReq, pyStrExn, hl],
        by simp [call_tool, callToolBody, getReq, pyStrExn, hl]⟩
    · exact ⟨by simp [call_tool, callToolBody, getReq, pyStrExn, hl₁, hl₂],
        by simp [call_tool, callToolBody, getReq, pyStrExn, hl₁, hl₂]⟩
  by_cases hb7 : name = "describe_service"
  · subst hb7
    obtain ⟨rfl, hl⟩ := find?_single_missing
      (by simpa [firstMissing, requiredKeys] using h)
    exact ⟨by simp [call_tool, callToolBody, getReq, pyStrExn, hl],
      by simp [call_tool, callToolBody, getReq, pyStrExn, hl]⟩
  by_cases hb8 : name = "get_configmap"
  · subst hb8
    obtain ⟨rfl, hl⟩ := find?_single_missing
      (by simpa [firstMissing, requiredKeys] using h)
    exact ⟨by simp [call_tool, callToolBody, getReq, pyStrExn, hl],
      by simp [call_tool, callToolBody, getReq, pyStrExn, hl]⟩
  by_cases hb9 : name = "get_secret"
  · subst hb9
    obtain ⟨rfl, hl⟩ := find?_single_missing
      (by simpa [firstMissing, requiredKeys] using h)
    exact ⟨by simp [call_tool, callToolBody, getReq, pyStrExn, hl],
      by simp [call_tool, callToolBody, getReq, pyStrExn, hl]⟩
  by_cases hb10 : name = "create_namespace"
  · subst hb10
    obtain ⟨rfl, hl⟩ := find?_single_missing
      (by simpa [firstMissing, requiredKeys] using h)
    exact ⟨by simp [call_tool, callToolBody, getReq, pyStrExn, hl],
      by simp [call_tool, callToolBody, getReq, pyStrExn, hl]⟩
  by_cases hb11 : name = "delete_namespace"
  · subst hb11
    obtain ⟨rfl, hl⟩ := find?_single_missing
      (by simpa [firstMissing, requiredKeys] using h)
    exact ⟨by simp [call_tool, callToolBody, getReq, pyStrExn, hl],
      by simp [call_tool, callToolBody, getReq, pyStrExn, hl]⟩
  by_cases hb12 : name = "describe_node"
  · subst hb12
    obtain ⟨rfl, hl⟩ := find?_single_missing
      (by simpa [firstMissing, requiredKeys] using h)
    exact ⟨by simp [call_tool, callToolBody, getReq, pyStrExn, hl],
      by simp [call_tool, callToolBody, getReq, pyStrExn, hl]⟩
  by_cases hb13 : name = "describe_job"
  · subst hb13
    obtain ⟨rfl, hl⟩ := find?_single_missing
      (by simpa [firstMissing, requiredKeys] using h)
    exact ⟨by simp [call_tool, callToolBody, getReq, pyStrExn, hl],
      by simp [call_tool, callToolBody, getReq, pyStrExn, hl]⟩
  by_cases hb14 : name = "delete_job"
  · subst hb14
    obtain ⟨rfl, hl⟩ := find?_single_missing
      (by simpa [firstMissing, requiredKeys] using h)
    exact ⟨by simp [call_tool, callToolBody, getReq, pyStrExn, hl],
      by simp [call_tool, callToolBody, getReq, pyStrExn, hl]⟩
  simp [firstMissing, requiredKeys, hb1, hb2, hb3, hb4, hb5, hb6, hb7, hb8, hb9,
    hb10, hb11, hb12, hb13, hb14] at h

/-- Witness for C3: `get_pod_logs` with an empty argument bag, under two
different tool environments. -/
theorem call_tool_missing_required_arg_witness :
    call_tool envOk "get_pod_logs" []
      = "Error executing tool " ++ "get_pod_logs" ++ ": " ++ ("'" ++ "pod_name" ++ "'")
    ∧ call_tool envOk "get_pod_logs" [] = call_tool envBoom "get_pod_logs" [] :=
  call_tool_missing_required_arg envOk envBoom "get_pod_logs" [] "pod_name" rfl
